import Mathlib

/-!
Verification of the toolchain-acquisition core of `sampctl` (`compiler.go`):
the platform catalog, version-template resolution, and the cache / network
acquisition pipeline (`GetCompilerPackage`, `GetCompilerPackageInfo`,
`CompilerFromCache`, `CompilerFromNet`).

Conventions of the embedding:
* Go strings are Lean `String`s; character-level work happens on `String.data`.
* Go's `error` values are modelled as their message strings (`GoError`);
  `errors.Wrapf(err, fmt, args)` prepends the formatted context and `": "`.
* A Go `panic` (from `template.Must` or an explicit `panic(err)`) is a
  distinct outcome `GoResult.panicked`, separate from a returned error.
* The brace character is written with the `\x7b` / `\x7d` escapes throughout.
-/

set_option maxRecDepth 8000

deriving instance DecidableEq for Except

namespace Sampctl

/-- A Go `error` value, modelled by its message. -/
abbrev GoError := String

/-- `errors.Wrap` / `errors.Wrapf`: prepend the context message and `": "`. -/
def wrapf (ctx : String) (e : GoError) : GoError := ctx ++ ": " ++ e

/-- Outcome of a Go computation that can `panic` (crash the process) instead
of returning. -/
inductive GoResult (α : Type) where
  | ok (a : α)
  | panicked
deriving DecidableEq, Repr

/-- The literal `{` character (written escaped). -/
def lbrace : Char := '\x7b'

/-- The literal `}` character (written escaped). -/
def rbrace : Char := '\x7d'

/-- The version placeholder `\x7b\x7b.Version\x7d\x7d` as it appears in every
catalog template. -/
def versionPlaceholder : String := "\x7b\x7b.Version\x7d\x7d"

/-- A parsed Go template restricted to the closed grammar the catalog uses:
literal text interleaved with the `.Version` action. -/
inductive TmplPart where
  | lit (s : List Char)
  | versionHole
deriving DecidableEq, Repr

/-- Parse a template string into literal parts and `.Version` actions.
`none` models a template on which the Go code panics: `template.Must`
panics on a syntax error, and `GetCompilerPackageInfo` calls `panic(err)`
on any `Execute` error, so every template outside the closed grammar
`literal text + \x7b\x7b.Version\x7d\x7d` (the only action the catalog uses)
is treated as malformed here. -/
def parseTmpl : List Char → Option (List TmplPart)
  | [] => some []
  | '\x7b' :: '\x7b' :: '.' :: 'V' :: 'e' :: 'r' :: 's' :: 'i' :: 'o' :: 'n' :: '\x7d' :: '\x7d' :: rest =>
    match parseTmpl rest with
    | some ps => some (.versionHole :: ps)
    | none => none
  | '\x7b' :: '\x7b' :: _ => none
  | c :: rest =>
    match parseTmpl rest with
    | some (.lit s :: tl) => some (.lit (c :: s) :: tl)
    | some ps => some (.lit [c] :: ps)
    | none => none

/-- `html/template` text-context escaping of one character
(Go's `htmlReplacementTable`): `<ul>&lt; &gt; &amp; &#39; &#34;</ul>` and the
NUL byte becomes the Unicode replacement character. All other characters are
passed through unchanged. -/
def escChar : Char → List Char
  | '<' => "&lt;".data
  | '>' => "&gt;".data
  | '&' => "&amp;".data
  | '\'' => "&#39;".data
  | '"' => "&#34;".data
  | c => if c = '\x00' then "�".data else [c]

/-- `html/template` text-context escaping of a whole string. -/
def htmlEscape (s : List Char) : List Char := s.flatMap escChar

/-- Render a parsed template against a version string; each `.Version`
action emits the HTML-escaped version (the templates live in HTML text
context, so `html/template` applies its text escaper to the substituted
value). -/
def renderTmpl (ps : List TmplPart) (version : List Char) : List Char :=
  ps.flatMap fun p =>
    match p with
    | .lit s => s
    | .versionHole => htmlEscape version

/-- One template resolution step of `GetCompilerPackageInfo`:
`template.Must(template.New(..).Parse(tmpl))` followed by `Execute` into a
buffer with `struct\x7b Version string \x7d\x7b version \x7d`. A malformed
template makes the process panic (`template.Must` or `panic(err)`). -/
def resolveTemplate (tmpl version : String) : GoResult String :=
  match parseTmpl tmpl.data with
  | some ps => .ok ⟨renderTmpl ps version.data⟩
  | none => .panicked

/-- Spec-side literal substitution: replace every occurrence of
`\x7b\x7b.Version\x7d\x7d` by the version string itself, with no escaping.
Used to state what "each placeholder occurrence literally replaced by the
version string" means; compared against `resolveTemplate`. -/
def substVersionAux (version : List Char) : List Char → List Char
  | [] => []
  | '\x7b' :: '\x7b' :: '.' :: 'V' :: 'e' :: 'r' :: 's' :: 'i' :: 'o' :: 'n' :: '\x7d' :: '\x7d' :: rest =>
    version ++ substVersionAux version rest
  | c :: rest => c :: substVersionAux version rest

/-- Spec-side literal substitution on strings. -/
def substVersion (tmpl version : String) : String :=
  ⟨substVersionAux version.data tmpl.data⟩

/-- Number of (possibly overlapping) occurrences of a nonempty pattern in a
character list. -/
def countSub (pat : List Char) : List Char → Nat
  | [] => 0
  | c :: rest => (if pat.isPrefixOf (c :: rest) then 1 else 0) + countSub pat rest

/-- A string free of brace characters, i.e. containing no placeholder
syntax at all. -/
def braceFree (s : String) : Bool :=
  s.data.all fun c => c ≠ lbrace && c ≠ rbrace

/-- A parsed template part whose literal text (if any) is brace-free. -/
def TmplPart.litBraceFree : TmplPart → Bool
  | .lit s => s.all fun c => c ≠ lbrace && c ≠ rbrace
  | .versionHole => true

/-- The extraction method of a package (`ExtractFunc` in the source): the
concrete decoders `Unzip` and `Untar` are external strategies, so only
their identity matters here. -/
inductive ExtractFunc where
  | Unzip
  | Untar
deriving DecidableEq, Repr

/-- `CompilerPackage` represents a compiler package for a specific OS.
Go's `map[string]string` of file paths is modelled as an association list
in the order of the source's map literal (keys are distinct). -/
structure CompilerPackage where
  URL : String
  Method : ExtractFunc
  Paths : List (String × String)
deriving DecidableEq, Repr

/-- The darwin catalog entry `pawnMacOS`. -/
def pawnMacOS : CompilerPackage :=
  { URL := "https://github.com/Zeex/pawn/releases/download/v\x7b\x7b.Version\x7d\x7d/pawnc-\x7b\x7b.Version\x7d\x7d-darwin.zip"
    Method := .Unzip
    Paths :=
      [("pawnc-\x7b\x7b.Version\x7d\x7d-darwin/bin/pawncc", "pawncc"),
       ("pawnc-\x7b\x7b.Version\x7d\x7d-darwin/lib/libpawnc.dylib", "libpawnc.dylib")] }

/-- The linux catalog entry `pawnLinux`. -/
def pawnLinux : CompilerPackage :=
  { URL := "https://github.com/Zeex/pawn/releases/download/v\x7b\x7b.Version\x7d\x7d/pawnc-\x7b\x7b.Version\x7d\x7d-linux.tar.gz"
    Method := .Untar
    Paths :=
      [("pawnc-\x7b\x7b.Version\x7d\x7d-linux/bin/pawncc", "pawncc"),
       ("pawnc-\x7b\x7b.Version\x7d\x7d-linux/lib/libpawnc.so", "libpawnc.so")] }

/-- The windows catalog entry `pawnWin32`. -/
def pawnWin32 : CompilerPackage :=
  { URL := "https://github.com/Zeex/pawn/releases/download/v\x7b\x7b.Version\x7d\x7d/pawnc-\x7b\x7b.Version\x7d\x7d-windows.zip"
    Method := .Unzip
    Paths :=
      [("pawnc-\x7b\x7b.Version\x7d\x7d-windows/bin/pawncc.exe", "pawncc.exe"),
       ("pawnc-\x7b\x7b.Version\x7d\x7d-windows/bin/pawnc.dll", "pawnc.dll")] }

/-- An ASCII control character (rejected by `net/url.Parse`). -/
def isCtl (c : Char) : Bool := c.toNat < 0x20 || c.toNat == 0x7f

/-- The part of `net/url.URL` this code reads (`u.Path`). -/
structure GoURL where
  path : String
deriving DecidableEq, Repr

/-- Scan for `"://"` and return what follows it. -/
def dropSchemeHostSep : List Char → Option (List Char)
  | [] => none
  | ':' :: '/' :: '/' :: rest => some rest
  | _ :: rest => dropSchemeHostSep rest

/-- `net/url.Parse`, modelled for the absolute `http(s)` URLs this code
builds: parsing fails on ASCII control characters; otherwise the path is
what follows the `scheme://host` part, with any query (`?...`) and
fragment (`#...`) stripped. A URL with no `"://"` is taken whole as the
path. -/
def urlParse (raw : String) : Except GoError GoURL :=
  if raw.data.any isCtl then
    .error "net/url: invalid control character in URL"
  else
    let noQuery := (raw.data.takeWhile (· ≠ '#')).takeWhile (· ≠ '?')
    match dropSchemeHostSep noQuery with
    | some rest => .ok ⟨⟨rest.dropWhile (· ≠ '/')⟩⟩
    | none => .ok ⟨⟨noQuery⟩⟩

/-- `path/filepath.Base` (slash-separated paths): `"."` for the empty
string, `"/"` for all-slashes, otherwise the last element after stripping
trailing slashes. -/
def filepathBase (p : String) : String :=
  if p.data = [] then "."
  else
    let r := p.data.reverse.dropWhile (· = '/')
    if r = [] then "/"
    else ⟨(r.takeWhile (· ≠ '/')).reverse⟩

/-- The `for source, target := range pkg.Paths` loop of
`GetCompilerPackageInfo`: resolve each key and value template into the
fresh `newPaths` map; an `Execute` error is a `panic(err)`. -/
def resolvePaths (version : String) : List (String × String) → GoResult (List (String × String))
  | [] => .ok []
  | (s, t) :: rest =>
    match resolveTemplate s version, resolveTemplate t version with
    | .ok s', .ok t' =>
      match resolvePaths version rest with
      | .ok r => .ok ((s', t') :: r)
      | .panicked => .panicked
    | _, _ => .panicked

/-- `GetCompilerPackageInfo(os, version)`: select the catalog entry for
`os`, resolve the URL template and every path-map key and value against
`version`, then derive the cache filename from the resolved URL via
`url.Parse` and `filepath.Base`. The unsupported-OS error message names
`runtime.GOOS` (passed here as `goos`), not the `os` argument. On a
`url.Parse` error the source returns the error (the partially filled
package is never used by callers), modelled as the `.error` branch. -/
def GetCompilerPackageInfo (goos os version : String) :
    GoResult (Except GoError (CompilerPackage × String)) :=
  let pkg? : Option CompilerPackage :=
    if os = "windows" then some pawnWin32
    else if os = "linux" then some pawnLinux
    else if os = "darwin" then some pawnMacOS
    else none
  match pkg? with
  | none => .ok (.error ("unsupported OS " ++ goos))
  | some pkg =>
    match resolveTemplate pkg.URL version with
    | .panicked => .panicked
    | .ok url =>
      match resolvePaths version pkg.Paths with
      | .panicked => .panicked
      | .ok paths =>
        match urlParse url with
        | .error e => .ok (.error e)
        | .ok u =>
          .ok (.ok ({ pkg with URL := url, Paths := paths }, filepathBase u.path))

/-! ## The acquisition pipeline with an explicit I/O trace

The unseen helpers (`GetCacheDir`, `exists`, `os.MkdirAll`, `FromCache`,
`FromNet`, the extraction functions) are external collaborators; their
behavior is supplied by an `Env` and every call the pipeline makes to the
outside world is recorded as an `Event`, in call order. -/

/-- One observable action of the pipeline. `stdout` is terminal output
(`fmt.Printf` / `fmt.Println`), not filesystem or network I/O;
`resolveInfo` marks a (pure, I/O-free) `GetCompilerPackageInfo` call. -/
inductive Event where
  | stdout (s : String)
  | resolveInfo (os version : String)
  | existsCheck (path : String)
  | mkdirAll (path : String)
  | cacheLookup (cacheDir filename dir : String) (method : ExtractFunc)
      (paths : List (String × String))
  | netFetch (url cacheDir filename : String)
  | extractRun (method : ExtractFunc) (path dir : String)
      (paths : List (String × String))
deriving DecidableEq, Repr

/-- Is an event a use of the filesystem, the cache, or the network?
(`stdout` and the pure `resolveInfo` are not.) -/
def Event.isIO : Event → Bool
  | .stdout _ => false
  | .resolveInfo _ _ => false
  | _ => true

/-- Is an event a network fetch? -/
def Event.isNetFetch : Event → Bool
  | .netFetch _ _ _ => true
  | _ => false

/-- Is an event an extraction run? -/
def Event.isExtract : Event → Bool
  | .extractRun _ _ _ _ => true
  | _ => false

/-- Is an event a cache `satisfy` lookup (`FromCache`)? -/
def Event.isCacheLookup : Event → Bool
  | .cacheLookup _ _ _ _ _ => true
  | _ => false

/-- Does an event ensure the existence of directory `d`
(the `exists` probe or `os.MkdirAll`)? -/
def Event.ensuresDir (d : String) : Event → Bool
  | .existsCheck p => p = d
  | .mkdirAll p => p = d
  | _ => false

/-- Is an event one the cache stage can emit (the pure resolve or the
cache lookup)? -/
def Event.isCacheStage : Event → Bool
  | .resolveInfo _ _ => true
  | .cacheLookup _ _ _ _ _ => true
  | _ => false

/-- The pipeline's environment: `runtime.GOOS` plus the behavior of every
external collaborator.

`getCacheDir` is modelled from the spec: `GetCacheDir` is not part of this
slice of the source; §6 of the design describes it as an external provider
of the OS-standard cache-root path, so it is a pure environment-supplied
result with no filesystem event of its own. -/
structure Env where
  goos : String
  getCacheDir : Except GoError String
  dirExists : String → Bool
  mkdirAll : String → Option GoError
  fromCache : String → String → String → ExtractFunc → List (String × String) →
    Bool × Option GoError
  fromNet : String → String → String → Except GoError String
  extractRun : ExtractFunc → String → String → List (String × String) → Option GoError

/-- `CompilerFromCache(cacheDir, version, dir)`: resolve the package info for
`runtime.GOOS`, then ask `FromCache` to satisfy the request from the cache.
The source returns `(false, nil)` whenever `hit` is false — the `FromCache`
error is dropped — and returns `(hit, err)` unchanged when `hit` is true. -/
def CompilerFromCache (env : Env) (cacheDir version dir : String) :
    GoResult ((Bool × Option GoError) × List Event) :=
  match GetCompilerPackageInfo env.goos env.goos version with
  | .panicked => .panicked
  | .ok (.error e) => .ok ((false, some e), [.resolveInfo env.goos version])
  | .ok (.ok (pkg, filename)) =>
    let r := env.fromCache cacheDir filename dir pkg.Method pkg.Paths
    let tr := [.resolveInfo env.goos version,
               .cacheLookup cacheDir filename dir pkg.Method pkg.Paths]
    if r.1 = false then .ok ((false, none), tr)
    else .ok ((r.1, r.2), tr)

/-- The tail of `CompilerFromNet` from the `FromNet` call on: download into
the cache, and on success run the package's extraction method on the
downloaded file with the resolved path map; a download failure returns the
wrapped error with no extraction. `pre` is the trace accumulated so far. -/
def fetchAndExtract (env : Env) (cacheDir dir : String) (pkg : CompilerPackage)
    (filename : String) (pre : List Event) : Option GoError × List Event :=
  let tr := pre ++ [.netFetch pkg.URL cacheDir filename]
  match env.fromNet pkg.URL cacheDir filename with
  | .error e => (some (wrapf "failed to download package" e), tr)
  | .ok path =>
    let tr' := tr ++ [.extractRun pkg.Method path dir pkg.Paths]
    match env.extractRun pkg.Method path dir pkg.Paths with
    | some e => (some (wrapf ("failed to unzip package " ++ path) e), tr')
    | none => (none, tr')

/-- The tail of `CompilerFromNet` from the cache-directory ensure on:
create `cacheDir` if missing (an `os.MkdirAll` failure is an early return),
then fetch and extract. -/
def ensureCacheAndFetch (env : Env) (cacheDir dir : String) (pkg : CompilerPackage)
    (filename : String) (pre : List Event) : Option GoError × List Event :=
  let tr := pre ++ [.existsCheck cacheDir]
  if env.dirExists cacheDir then fetchAndExtract env cacheDir dir pkg filename tr
  else
    match env.mkdirAll cacheDir with
    | some e =>
      (some (wrapf ("failed to create cache " ++ cacheDir) e), tr ++ [.mkdirAll cacheDir])
    | none => fetchAndExtract env cacheDir dir pkg filename (tr ++ [.mkdirAll cacheDir])

/-- `CompilerFromNet(cacheDir, version, dir)`: resolve the package info,
print the path map, ensure `dir` and then `cacheDir` exist (creating them
if missing), download with `FromNet`, and on success run the package's
extraction method on the downloaded file with the resolved path map.
The straight-line Go body is split at its early returns into the two
continuation helpers above. -/
def CompilerFromNet (env : Env) (cacheDir version dir : String) :
    GoResult (Option GoError × List Event) :=
  match GetCompilerPackageInfo env.goos env.goos version with
  | .panicked => .panicked
  | .ok (.error e) =>
    .ok (some (wrapf "package info mismatch" e), [.resolveInfo env.goos version])
  | .ok (.ok (pkg, filename)) =>
    let tr0 := [.resolveInfo env.goos version, .stdout "paths", .existsCheck dir]
    if env.dirExists dir then
      .ok (ensureCacheAndFetch env cacheDir dir pkg filename tr0)
    else
      match env.mkdirAll dir with
      | some e => .ok (some (wrapf ("failed to create dir " ++ dir) e), tr0 ++ [.mkdirAll dir])
      | none => .ok (ensureCacheAndFetch env cacheDir dir pkg filename (tr0 ++ [.mkdirAll dir]))

/-- `GetCompilerPackage(version, dir)`, the public entry point: get the
cache directory, try the cache stage, and on a miss fall through to the
network stage; any stage error is wrapped and returned. The `err != nil`
check precedes the `hit` check. -/
def GetCompilerPackage (env : Env) (version dir : String) :
    GoResult (Option GoError × List Event) :=
  let tr0 := [Event.stdout "Downloading compiler package"]
  match env.getCacheDir with
  | .error e => .ok (some e, tr0)
  | .ok cacheDir =>
    match CompilerFromCache env cacheDir version dir with
    | .panicked => .panicked
    | .ok ((hit, err), tr1) =>
      match err with
      | some e =>
        .ok (some (wrapf ("failed to get package " ++ version ++ " from cache") e), tr0 ++ tr1)
      | none =>
        if hit then .ok (none, tr0 ++ tr1)
        else
          match CompilerFromNet env cacheDir version dir with
          | .panicked => .panicked
          | .ok (err2, tr2) =>
            match err2 with
            | some e =>
              .ok (some (wrapf ("failed to get package " ++ version ++ " from net") e),
                tr0 ++ tr1 ++ tr2)
            | none => .ok (none, tr0 ++ tr1 ++ tr2)

/-! ## Go map aliasing: a store-passing view of `GetCompilerPackageInfo`

In Go a `map` value is a reference. `pkg := pawnWin32` copies the struct but
aliases the catalog's `Paths` map; the loop then builds a *fresh* map
`newPaths` and assigns it to the local copy. To make this observable, the
store-passing view keeps every `map[string]string` in a `MapStore` and
packages hold references into it. This view is used only for the
catalog-immutability question; the functional view above is the one the
orchestrator uses. -/

/-- The contents of one Go `map[string]string`, as an association list. -/
abbrev PathsMap := List (String × String)

/-- The heap of path maps; a map value is an index into this list. -/
abbrev MapStore := List PathsMap

/-- `CompilerPackage` with its `Paths` map held by reference. -/
structure CompilerPackageRef where
  URL : String
  Method : ExtractFunc
  PathsRef : Nat
deriving DecidableEq, Repr

/-- The initial store holding the three catalog maps. -/
def catalogStore : MapStore := [pawnMacOS.Paths, pawnLinux.Paths, pawnWin32.Paths]

/-- `pawnMacOS` in the store-passing view (its map lives at index 0). -/
def pawnMacOSRef : CompilerPackageRef := ⟨pawnMacOS.URL, .Unzip, 0⟩

/-- `pawnLinux` in the store-passing view (its map lives at index 1). -/
def pawnLinuxRef : CompilerPackageRef := ⟨pawnLinux.URL, .Untar, 1⟩

/-- `pawnWin32` in the store-passing view (its map lives at index 2). -/
def pawnWin32Ref : CompilerPackageRef := ⟨pawnWin32.URL, .Unzip, 2⟩

/-- Go map insertion `m[k] = v`: overwrite the binding if the key is
present, otherwise append it. -/
def mapSet (m : PathsMap) (k v : String) : PathsMap :=
  if m.any (fun p => p.1 = k) then m.map fun p => if p.1 = k then (k, v) else p
  else m ++ [(k, v)]

/-- The `for source, target := range pkg.Paths` loop in the store-passing
view: each resolved pair is written into the map at `newRef`
(`newPaths[source] = target`); writes touch no other store index. -/
def resolvePathsH (version : String) (newRef : Nat) :
    List (String × String) → MapStore → GoResult MapStore
  | [], store => .ok store
  | (s, t) :: rest, store =>
    match resolveTemplate s version, resolveTemplate t version with
    | .ok s', .ok t' =>
      resolvePathsH version newRef rest (store.set newRef (mapSet (store.getD newRef []) s' t'))
    | _, _ => .panicked

/-- `GetCompilerPackageInfo` in the store-passing view: the struct copy
aliases the catalog map (`PathsRef` unchanged), `make(map[string]string)`
allocates a fresh empty map at the end of the store, the loop fills it, and
`pkg.Paths = newPaths` repoints the local copy at the fresh map. -/
def GetCompilerPackageInfoH (store : MapStore) (goos os version : String) :
    GoResult (Except GoError (CompilerPackageRef × String) × MapStore) :=
  let pkg? : Option CompilerPackageRef :=
    if os = "windows" then some pawnWin32Ref
    else if os = "linux" then some pawnLinuxRef
    else if os = "darwin" then some pawnMacOSRef
    else none
  match pkg? with
  | none => .ok (.error ("unsupported OS " ++ goos), store)
  | some pkg =>
    match resolveTemplate pkg.URL version with
    | .panicked => .panicked
    | .ok url =>
      let newRef := store.length
      match resolvePathsH version newRef (store.getD pkg.PathsRef []) (store ++ [[]]) with
      | .panicked => .panicked
      | .ok store' =>
        match urlParse url with
        | .error e => .ok (.error e, store')
        | .ok u =>
          .ok (.ok ({ pkg with URL := url, PathsRef := newRef }, filepathBase u.path), store')

/-- The store left behind by a `GetCompilerPackageInfoH` call (unchanged if
the call panics). -/
def infoHStore (store : MapStore) (goos os version : String) : MapStore :=
  match GetCompilerPackageInfoH store goos os version with
  | .ok (_, s) => s
  | .panicked => store

/-! ## Spec-side helpers for stating the claims -/

/-- Every template of the platform catalog: the three locator templates and
every key and value of the three path maps. -/
def catalogTemplates : List String :=
  [pawnMacOS.URL, pawnLinux.URL, pawnWin32.URL] ++
    (pawnMacOS.Paths ++ pawnLinux.Paths ++ pawnWin32.Paths).flatMap fun p => [p.1, p.2]

/-- `ensuredBeforeEvt dir isTarget tr`: every `isTarget` event in `tr` is
preceded by an event that ensures directory `dir` exists (trivially true
when no target event occurs). -/
def ensuredBeforeEvt (dir : String) (isTarget : Event → Bool) : List Event → Bool
  | [] => true
  | e :: rest =>
    if isTarget e then false
    else if e.ensuresDir dir then true
    else ensuredBeforeEvt dir isTarget rest

/-! ## Concrete environments and runs used by witnesses and counterexamples -/

/-- The linux catalog entry resolved at version `3.10.4`. -/
def pawnLinux3104 : CompilerPackage :=
  { URL := "https://github.com/Zeex/pawn/releases/download/v3.10.4/pawnc-3.10.4-linux.tar.gz"
    Method := .Untar
    Paths :=
      [("pawnc-3.10.4-linux/bin/pawncc", "pawncc"),
       ("pawnc-3.10.4-linux/lib/libpawnc.so", "libpawnc.so")] }

/-- The trace of the cache stage on a linux host at version `3.10.4` with
cache directory `/cache` and destination `/dest`. -/
def linuxCacheTrace : List Event :=
  [.resolveInfo "linux" "3.10.4",
   .cacheLookup "/cache" "pawnc-3.10.4-linux.tar.gz" "/dest" .Untar pawnLinux3104.Paths]

/-- A linux host whose cache satisfies the request cleanly. -/
def hitEnv : Env :=
  { goos := "linux"
    getCacheDir := .ok "/cache"
    dirExists := fun _ => true
    mkdirAll := fun _ => none
    fromCache := fun _ _ _ _ _ => (true, none)
    fromNet := fun _ _ _ => .ok "/cache/pawnc-3.10.4-linux.tar.gz"
    extractRun := fun _ _ _ _ => none }

/-- A linux host whose cache misses with an accompanying error
(a corrupt cache entry); the network path succeeds. -/
def missEnv : Env :=
  { hitEnv with fromCache := fun _ _ _ _ _ => (false, some "corrupt cache entry") }

/-- A linux host whose cache reports a hit together with an error. -/
def hitErrEnv : Env :=
  { hitEnv with fromCache := fun _ _ _ _ _ => (true, some "permission denied") }

/-- A host with an unsupported platform identifier. -/
def plan9Env : Env := { hitEnv with goos := "plan9" }

/-- A linux host with a clean cache miss, missing directories, and a failing
network fetch. -/
def fetchFailEnv : Env :=
  { hitEnv with
    fromCache := fun _ _ _ _ _ => (false, none)
    dirExists := fun _ => false
    fromNet := fun _ _ _ => .error "connection refused" }

/-- The trace of the network stage under `fetchFailEnv` (both directories
missing and created, then the fetch fails). -/
def fetchFailNetTrace : List Event :=
  [.resolveInfo "linux" "3.10.4", .stdout "paths",
   .existsCheck "/dest", .mkdirAll "/dest",
   .existsCheck "/cache", .mkdirAll "/cache",
   .netFetch "https://github.com/Zeex/pawn/releases/download/v3.10.4/pawnc-3.10.4-linux.tar.gz"
     "/cache" "pawnc-3.10.4-linux.tar.gz"]

/-! ## Sanity checks of the embedding on concrete inputs -/

example :
    GetCompilerPackageInfo "linux" "linux" "3.10.4" =
      .ok (.ok (pawnLinux3104, "pawnc-3.10.4-linux.tar.gz")) := by decide

example : GetCompilerPackageInfo "plan9" "plan9" "3.10.4" =
    .ok (.error "unsupported OS plan9") := by decide

example : resolveTemplate "v\x7b\x7b.Version\x7d\x7d/x" "3.1" = .ok "v3.1/x" := by decide

/-! ## Helper lemmas -/

/-- The cache stage emits only the pure resolve event and the cache lookup
event — in particular no network, extraction, or directory event. -/
theorem CompilerFromCache_events (env : Env) (cacheDir version dir : String)
    (out : Bool × Option GoError) (tr : List Event)
    (h : CompilerFromCache env cacheDir version dir = .ok (out, tr)) :
    tr.all Event.isCacheStage = true := by
  unfold CompilerFromCache at h
  cases hinfo : GetCompilerPackageInfo env.goos env.goos version with
  | panicked => rw [hinfo] at h; cases h
  | ok r =>
    rw [hinfo] at h
    cases r with
    | error e =>
      simp only [GoResult.ok.injEq, Prod.mk.injEq] at h
      rcases h with ⟨-, h2⟩
      subst h2
      simp [Event.isCacheStage]
    | ok pr =>
      rcases pr with ⟨pkg, fn⟩
      simp only at h
      split at h <;>
      · simp only [GoResult.ok.injEq, Prod.mk.injEq] at h
        rcases h with ⟨-, h2⟩
        subst h2
        simp [Event.isCacheStage]

/-- A cache-stage event is not a network fetch. -/
theorem cacheStage_not_netFetch (e : Event) (h : e.isCacheStage = true) :
    e.isNetFetch = false := by
  cases e <;> simp_all [Event.isCacheStage, Event.isNetFetch]

/-- A cache-stage event ensures no directory. -/
theorem cacheStage_not_ensuresDir (d : String) (e : Event) (h : e.isCacheStage = true) :
    e.ensuresDir d = false := by
  cases e <;> simp_all [Event.isCacheStage, Event.ensuresDir]

/-- The fetch-and-extract tail only appends to the accumulated trace. -/
theorem fetchAndExtract_trace (env : Env) (cacheDir dir : String) (pkg : CompilerPackage)
    (filename : String) (pre : List Event) :
    ∃ post, (fetchAndExtract env cacheDir dir pkg filename pre).2 = pre ++ post := by
  cases hf : env.fromNet pkg.URL cacheDir filename with
  | error e =>
    exact ⟨[.netFetch pkg.URL cacheDir filename], by simp [fetchAndExtract, hf]⟩
  | ok path =>
    cases hx : env.extractRun pkg.Method path dir pkg.Paths with
    | some e =>
      exact ⟨[.netFetch pkg.URL cacheDir filename, .extractRun pkg.Method path dir pkg.Paths],
        by simp [fetchAndExtract, hf, hx]⟩
    | none =>
      exact ⟨[.netFetch pkg.URL cacheDir filename, .extractRun pkg.Method path dir pkg.Paths],
        by simp [fetchAndExtract, hf, hx]⟩

/-- The ensure-cache tail only appends to the accumulated trace. -/
theorem ensureCacheAndFetch_trace (env : Env) (cacheDir dir : String) (pkg : CompilerPackage)
    (filename : String) (pre : List Event) :
    ∃ post, (ensureCacheAndFetch env cacheDir dir pkg filename pre).2 = pre ++ post := by
  by_cases hc : env.dirExists cacheDir = true
  · obtain ⟨post, hp⟩ :=
      fetchAndExtract_trace env cacheDir dir pkg filename (pre ++ [.existsCheck cacheDir])
    refine ⟨[.existsCheck cacheDir] ++ post, ?_⟩
    simp only [ensureCacheAndFetch, if_pos hc]
    rw [hp, List.append_assoc]
  · cases hm : env.mkdirAll cacheDir with
    | some e =>
      exact ⟨[.existsCheck cacheDir, .mkdirAll cacheDir],
        by simp [ensureCacheAndFetch, if_neg hc, hm]⟩
    | none =>
      obtain ⟨post, hp⟩ := fetchAndExtract_trace env cacheDir dir pkg filename
        (pre ++ [.existsCheck cacheDir] ++ [.mkdirAll cacheDir])
      refine ⟨[.existsCheck cacheDir, .mkdirAll cacheDir] ++ post, ?_⟩
      simp only [ensureCacheAndFetch, if_neg hc, hm]
      rw [hp]
      simp

/-- If a target-free prefix contains an ensure event for `d`, any extension
of it is ensured-before-target. -/
theorem ensuredBeforeEvt_append (d : String) (p : Event → Bool) (pre rest : List Event)
    (hp : pre.all (fun e => !p e) = true) (he : pre.any (fun e => e.ensuresDir d) = true) :
    ensuredBeforeEvt d p (pre ++ rest) = true := by
  induction pre with
  | nil => simp at he
  | cons a l ih =>
    simp only [List.all_cons, Bool.and_eq_true, Bool.not_eq_true'] at hp
    obtain ⟨ha, hl⟩ := hp
    simp only [List.any_cons, Bool.or_eq_true] at he
    cases hea : a.ensuresDir d with
    | true => simp [List.cons_append, ensuredBeforeEvt, ha, hea]
    | false =>
      rcases he with he1 | he2
      · rw [hea] at he1; cases he1
      · simp [List.cons_append, ensuredBeforeEvt, ha, hea, ih hl he2]

/-- An all-negative list has zero matches. -/
theorem countP_zero_of_all_not (p : Event → Bool) (l : List Event)
    (h : l.all (fun e => !p e) = true) : l.countP p = 0 := by
  induction l with
  | nil => rfl
  | cons a t ih =>
    simp only [List.all_cons, Bool.and_eq_true, Bool.not_eq_true'] at h
    simp [List.countP_cons, h.1, ih h.2]

/-- Weaken an `all` over a conjunction to its left component. -/
theorem all_not_left (p q : Event → Bool) (l : List Event)
    (h : l.all (fun e => !p e && !q e) = true) : l.all (fun e => !p e) = true := by
  simp only [List.all_eq_true, Bool.and_eq_true] at h ⊢
  exact fun e he => (h e he).1

/-- Weaken an `all` over a conjunction to its right component. -/
theorem all_not_right (p q : Event → Bool) (l : List Event)
    (h : l.all (fun e => !p e && !q e) = true) : l.all (fun e => !q e) = true := by
  simp only [List.all_eq_true, Bool.and_eq_true] at h ⊢
  exact fun e he => (h e he).2

/-- Under functioning directory creation, the network stage reduces to the
fetch-and-extract tail run after a prefix that contains no fetch and no
extraction and has ensured the cache directory. -/
theorem CompilerFromNet_reaches_fetch (env : Env) (cacheDir version dir : String)
    (pkg : CompilerPackage) (fn : String)
    (hinfo : GetCompilerPackageInfo env.goos env.goos version = .ok (.ok (pkg, fn)))
    (hdir : env.dirExists dir = true ∨ env.mkdirAll dir = none)
    (hcmk : env.dirExists cacheDir = true ∨ env.mkdirAll cacheDir = none) :
    ∃ pre, CompilerFromNet env cacheDir version dir =
        .ok (fetchAndExtract env cacheDir dir pkg fn pre) ∧
      pre.all (fun e => !e.isNetFetch && !e.isExtract) = true ∧
      pre.any (fun e => e.ensuresDir cacheDir) = true := by
  by_cases hd : env.dirExists dir = true
  · by_cases hc : env.dirExists cacheDir = true
    · refine ⟨[.resolveInfo env.goos version, .stdout "paths", .existsCheck dir,
          .existsCheck cacheDir], ?_, ?_, ?_⟩
      · simp [CompilerFromNet, hinfo, hd, ensureCacheAndFetch, hc]
      · simp [Event.isNetFetch, Event.isExtract]
      · simp [Event.ensuresDir]
    · have hm : env.mkdirAll cacheDir = none := hcmk.resolve_left hc
      refine ⟨[.resolveInfo env.goos version, .stdout "paths", .existsCheck dir,
          .existsCheck cacheDir, .mkdirAll cacheDir], ?_, ?_, ?_⟩
      · simp [CompilerFromNet, hinfo, hd, ensureCacheAndFetch, hc, hm]
      · simp [Event.isNetFetch, Event.isExtract]
      · simp [Event.ensuresDir]
  · have hmd : env.mkdirAll dir = none := hdir.resolve_left hd
    by_cases hc : env.dirExists cacheDir = true
    · refine ⟨[.resolveInfo env.goos version, .stdout "paths", .existsCheck dir,
          .mkdirAll dir, .existsCheck cacheDir], ?_, ?_, ?_⟩
      · simp [CompilerFromNet, hinfo, hd, hmd, ensureCacheAndFetch, hc]
      · simp [Event.isNetFetch, Event.isExtract]
      · simp [Event.ensuresDir]
    · have hm : env.mkdirAll cacheDir = none := hcmk.resolve_left hc
      refine ⟨[.resolveInfo env.goos version, .stdout "paths", .existsCheck dir,
          .mkdirAll dir, .existsCheck cacheDir, .mkdirAll cacheDir], ?_, ?_, ?_⟩
      · simp [CompilerFromNet, hinfo, hd, hmd, ensureCacheAndFetch, hc, hm]
      · simp [Event.isNetFetch, Event.isExtract]
      · simp [Event.ensuresDir]

/-! ## C1 -/

/-- **C1**: if the cache stage reports `hit = true` with no error, then
`GetCompilerPackage` returns success with exactly the banner plus the
cache-stage trace: the network stage is never invoked and the run contains
no network fetch, so re-running after a prior success is a pure cache hit
with no network activity. -/
theorem c1_cache_hit_is_terminal (env : Env) (cacheDir version dir : String) (tr : List Event)
    (hcd : env.getCacheDir = .ok cacheDir)
    (hcache : CompilerFromCache env cacheDir version dir = .ok ((true, none), tr)) :
    GetCompilerPackage env version dir =
      .ok (none, Event.stdout "Downloading compiler package" :: tr) ∧
    (Event.stdout "Downloading compiler package" :: tr).all (fun e => !e.isNetFetch) = true := by
  constructor
  · simp [GetCompilerPackage, hcd, hcache]
  · have hall := CompilerFromCache_events env cacheDir version dir _ _ hcache
    simp only [List.all_cons, Bool.and_eq_true, List.all_eq_true] at hall ⊢
    refine ⟨rfl, fun e he => ?_⟩
    simp [cacheStage_not_netFetch e (hall e he)]

/-- Witness for C1: a concrete hit environment. -/
theorem c1_witness :
    GetCompilerPackage hitEnv "3.10.4" "/dest" =
      .ok (none, Event.stdout "Downloading compiler package" :: linuxCacheTrace) ∧
    (Event.stdout "Downloading compiler package" :: linuxCacheTrace).all
      (fun e => !e.isNetFetch) = true :=
  c1_cache_hit_is_terminal hitEnv "/cache" "3.10.4" "/dest" linuxCacheTrace rfl (by decide)

/-! ## C10 -/

/-- **C10**: if the cache stage reports `hit = true` together with a non-nil
error, `GetCompilerPackage` returns the wrapped cache error, not success:
the `err != nil` check precedes the `hit` check. -/
theorem c10_error_beats_hit (env : Env) (cacheDir version dir : String)
    (e : GoError) (tr : List Event)
    (hcd : env.getCacheDir = .ok cacheDir)
    (hcache : CompilerFromCache env cacheDir version dir = .ok ((true, some e), tr)) :
    GetCompilerPackage env version dir =
      .ok (some (wrapf ("failed to get package " ++ version ++ " from cache") e),
        Event.stdout "Downloading compiler package" :: tr) := by
  simp [GetCompilerPackage, hcd, hcache, wrapf]

/-- Witness for C10: a hit accompanied by a `permission denied` error is
reported as a failure. -/
theorem c10_witness :
    GetCompilerPackage hitErrEnv "3.10.4" "/dest" =
      .ok (some (wrapf "failed to get package 3.10.4 from cache" "permission denied"),
        Event.stdout "Downloading compiler package" :: linuxCacheTrace) :=
  c10_error_beats_hit hitErrEnv "/cache" "3.10.4" "/dest" "permission denied"
    linuxCacheTrace rfl (by decide)

/-! ## C4 -/

/-- **C4**: for a platform identifier outside `darwin`, `linux`, `windows`,
acquisition fails at once with a configuration error naming the platform,
and its trace holds no filesystem, cache, network, or extraction event.
(`GetCacheDir`, which runs first, is modelled from the spec as a pure
path provider.) -/
theorem c4_unsupported_platform_fails_fast (env : Env) (version dir cacheDir : String)
    (hcd : env.getCacheDir = .ok cacheDir)
    (h1 : env.goos ≠ "windows") (h2 : env.goos ≠ "linux") (h3 : env.goos ≠ "darwin") :
    GetCompilerPackage env version dir =
      .ok (some (wrapf ("failed to get package " ++ version ++ " from cache")
            ("unsupported OS " ++ env.goos)),
        [.stdout "Downloading compiler package", .resolveInfo env.goos version]) ∧
    ([Event.stdout "Downloading compiler package", .resolveInfo env.goos version].all
      fun e => !e.isIO) = true := by
  have hinfo : GetCompilerPackageInfo env.goos env.goos version =
      .ok (.error ("unsupported OS " ++ env.goos)) := by
    unfold GetCompilerPackageInfo
    simp [h1, h2, h3]
  constructor
  · simp [GetCompilerPackage, CompilerFromCache, hcd, hinfo]
  · simp [Event.isIO]

/-- Witness for C4: a `plan9` host. -/
theorem c4_witness :
    GetCompilerPackage plan9Env "3.10.4" "/dest" =
      .ok (some (wrapf "failed to get package 3.10.4 from cache" "unsupported OS plan9"),
        [.stdout "Downloading compiler package", .resolveInfo "plan9" "3.10.4"]) ∧
    ([Event.stdout "Downloading compiler package", .resolveInfo "plan9" "3.10.4"].all
      fun e => !e.isIO) = true :=
  c4_unsupported_platform_fails_fast plan9Env "3.10.4" "/dest" "/cache" rfl
    (by decide) (by decide) (by decide)

/-! ## C2 -/

/-- **C2**: on any cache outcome with `hit = false`, `CompilerFromCache`
returns `(false, nil)` — the accompanying error, corrupt-cache included, is
dropped — and `GetCompilerPackage` falls through to the network stage: its
final outcome is exactly the network stage's outcome (wrapped), never a
cache error. -/
theorem c2_miss_is_not_failure (env : Env) (cacheDir version dir : String)
    (pkg : CompilerPackage) (fn : String) (e : Option GoError)
    (hinfo : GetCompilerPackageInfo env.goos env.goos version = .ok (.ok (pkg, fn)))
    (hmiss : env.fromCache cacheDir fn dir pkg.Method pkg.Paths = (false, e))
    (hcd : env.getCacheDir = .ok cacheDir) :
    CompilerFromCache env cacheDir version dir =
      .ok ((false, none),
        [.resolveInfo env.goos version, .cacheLookup cacheDir fn dir pkg.Method pkg.Paths]) ∧
    ∀ out tr2, CompilerFromNet env cacheDir version dir = .ok (out, tr2) →
      GetCompilerPackage env version dir =
        .ok (out.map (wrapf ("failed to get package " ++ version ++ " from net")),
          Event.stdout "Downloading compiler package" ::
            .resolveInfo env.goos version ::
            .cacheLookup cacheDir fn dir pkg.Method pkg.Paths :: tr2) := by
  have hcfc : CompilerFromCache env cacheDir version dir =
      .ok ((false, none),
        [.resolveInfo env.goos version, .cacheLookup cacheDir fn dir pkg.Method pkg.Paths]) := by
    unfold CompilerFromCache
    rw [hinfo]
    simp [hmiss]
  refine ⟨hcfc, fun out tr2 hnet => ?_⟩
  cases out <;> simp [GetCompilerPackage, hcd, hcfc, hnet]

/-- Witness for C2: a corrupt-cache miss falls through to a successful
network acquisition. -/
theorem c2_witness :
    (CompilerFromCache missEnv "/cache" "3.10.4" "/dest" =
      .ok ((false, none), linuxCacheTrace)) ∧
    ∀ out tr2, CompilerFromNet missEnv "/cache" "3.10.4" "/dest" = .ok (out, tr2) →
      GetCompilerPackage missEnv "3.10.4" "/dest" =
        .ok (out.map (wrapf "failed to get package 3.10.4 from net"),
          Event.stdout "Downloading compiler package" ::
            .resolveInfo "linux" "3.10.4" ::
            .cacheLookup "/cache" "pawnc-3.10.4-linux.tar.gz" "/dest" .Untar
              pawnLinux3104.Paths :: tr2) :=
  c2_miss_is_not_failure missEnv "/cache" "3.10.4" "/dest" pawnLinux3104
    "pawnc-3.10.4-linux.tar.gz" (some "corrupt cache entry") (by decide) (by decide) rfl

/-! ## C5 -/

/-- **C5 counterexample**: on a concrete cache-hit acquisition the Cache
Store satisfy call happens with no prior event ensuring the target install
directory exists — the trace goes banner, resolve, lookup, with no
`exists`/`MkdirAll` on `/dest` before the lookup — so "the target install
directory is ensured to exist after descriptor resolution and before the
Cache Store satisfy call" fails on this run. -/
theorem c5_counterexample :
    GetCompilerPackage hitEnv "3.10.4" "/dest" =
      .ok (none, Event.stdout "Downloading compiler package" :: linuxCacheTrace) ∧
    (Event.stdout "Downloading compiler package" :: linuxCacheTrace).any
      Event.isCacheLookup = true ∧
    ensuredBeforeEvt "/dest" Event.isCacheLookup
      (Event.stdout "Downloading compiler package" :: linuxCacheTrace) = false := by
  refine ⟨by decide, by decide, by decide⟩

/-- **C5 (amended)**: the target install directory is ensured to exist only
on the network path: the cache stage emits no directory-ensuring event at
all (the satisfy call runs without it), while `CompilerFromNet` ensures the
install directory — probing it and creating it if missing — before any
network fetch. -/
theorem c5_ensure_dir_only_on_net_path :
    (∀ (env : Env) (cacheDir version dir : String) out tr,
      CompilerFromCache env cacheDir version dir = .ok (out, tr) →
        tr.all (fun e => !e.ensuresDir dir) = true) ∧
    (∀ (env : Env) (cacheDir version dir : String) out tr,
      CompilerFromNet env cacheDir version dir = .ok (out, tr) →
        ensuredBeforeEvt dir Event.isNetFetch tr = true) := by
  constructor
  · intro env cacheDir version dir out tr h
    have hall := CompilerFromCache_events env cacheDir version dir out tr h
    simp only [List.all_eq_true] at hall ⊢
    intro e he
    simp [cacheStage_not_ensuresDir dir e (hall e he)]
  · intro env cacheDir version dir out tr h
    unfold CompilerFromNet at h
    cases hinfo : GetCompilerPackageInfo env.goos env.goos version with
    | panicked => rw [hinfo] at h; cases h
    | ok r =>
      rw [hinfo] at h
      cases r with
      | error e =>
        simp only [GoResult.ok.injEq, Prod.mk.injEq] at h
        obtain ⟨-, h2⟩ := h
        subst h2
        rfl
      | ok pr =>
        obtain ⟨pkg, fn⟩ := pr
        dsimp only at h
        by_cases hd : env.dirExists dir = true
        · rw [if_pos hd] at h
          simp only [GoResult.ok.injEq] at h
          obtain ⟨post, hp⟩ := ensureCacheAndFetch_trace env cacheDir dir pkg fn
            [.resolveInfo env.goos version, .stdout "paths", .existsCheck dir]
          rw [h] at hp
          dsimp only at hp
          rw [hp]
          simp [ensuredBeforeEvt, Event.isNetFetch, Event.ensuresDir]
        · rw [if_neg hd] at h
          cases hmk : env.mkdirAll dir with
          | some e =>
            rw [hmk] at h
            simp only [GoResult.ok.injEq, Prod.mk.injEq] at h
            obtain ⟨-, h2⟩ := h
            subst h2
            simp [ensuredBeforeEvt, Event.isNetFetch, Event.ensuresDir]
          | none =>
            rw [hmk] at h
            simp only [GoResult.ok.injEq] at h
            obtain ⟨post, hp⟩ := ensureCacheAndFetch_trace env cacheDir dir pkg fn
              ([.resolveInfo env.goos version, .stdout "paths", .existsCheck dir] ++
                [.mkdirAll dir])
            rw [h] at hp
            dsimp only at hp
            rw [hp]
            simp [ensuredBeforeEvt, Event.isNetFetch, Event.ensuresDir]

/-- Witness for the amended C5: the concrete hit run's cache stage ensures
no directory, and a concrete network run ensures `/dest` before its fetch. -/
theorem c5_witness :
    linuxCacheTrace.all (fun e => !e.ensuresDir "/dest") = true ∧
    ensuredBeforeEvt "/dest" Event.isNetFetch fetchFailNetTrace = true :=
  ⟨c5_ensure_dir_only_on_net_path.1 hitEnv "/cache" "3.10.4" "/dest" (true, none)
      linuxCacheTrace (by decide),
   c5_ensure_dir_only_on_net_path.2 fetchFailEnv "/cache" "3.10.4" "/dest"
      (some (wrapf "failed to download package" "connection refused"))
      fetchFailNetTrace (by decide)⟩

/-! ## C7 -/

/-- **C7**: in `CompilerFromNet` (given working directory creation so the
fetch is reached), the cache directory is ensured to exist before the
network fetch; the trace holds exactly one fetch (no retry); a failed fetch
returns the wrapped transport error and the extraction strategy is never
invoked; and after a successful fetch the run ends with exactly the
extraction of the downloaded file into `dir` with the resolved path map,
whose outcome is the stage's outcome. -/
theorem c7_net_stage_order (env : Env) (cacheDir version dir : String)
    (pkg : CompilerPackage) (fn : String)
    (hinfo : GetCompilerPackageInfo env.goos env.goos version = .ok (.ok (pkg, fn)))
    (hdir : env.dirExists dir = true ∨ env.mkdirAll dir = none)
    (hcmk : env.dirExists cacheDir = true ∨ env.mkdirAll cacheDir = none) :
    ∀ out tr, CompilerFromNet env cacheDir version dir = .ok (out, tr) →
      ensuredBeforeEvt cacheDir Event.isNetFetch tr = true ∧
      tr.countP (fun ev => ev.isNetFetch) = 1 ∧
      (∀ e, env.fromNet pkg.URL cacheDir fn = .error e →
        out = some (wrapf "failed to download package" e) ∧
        tr.countP (fun ev => ev.isExtract) = 0) ∧
      (∀ path, env.fromNet pkg.URL cacheDir fn = .ok path →
        out = (env.extractRun pkg.Method path dir pkg.Paths).map
            (wrapf ("failed to unzip package " ++ path)) ∧
        tr.getLast? = some (.extractRun pkg.Method path dir pkg.Paths)) := by
  obtain ⟨pre, hrun, hall, hany⟩ :=
    CompilerFromNet_reaches_fetch env cacheDir version dir pkg fn hinfo hdir hcmk
  intro out tr h
  rw [hrun] at h
  simp only [GoResult.ok.injEq] at h
  cases hf : env.fromNet pkg.URL cacheDir fn with
  | error e0 =>
    have hfe : fetchAndExtract env cacheDir dir pkg fn pre =
        (some (wrapf "failed to download package" e0),
         pre ++ [.netFetch pkg.URL cacheDir fn]) := by
      simp [fetchAndExtract, hf]
    rw [hfe] at h
    injection h with h1 h2
    subst h1
    subst h2
    refine ⟨?_, ?_, ?_, ?_⟩
    · exact ensuredBeforeEvt_append cacheDir _ pre _
        (all_not_left _ _ _ hall) hany
    · rw [List.countP_append,
        countP_zero_of_all_not _ pre (all_not_left _ _ _ hall)]
      simp [List.countP_cons, Event.isNetFetch]
    · intro e he
      injection he with he1
      subst he1
      refine ⟨rfl, ?_⟩
      rw [List.countP_append,
        countP_zero_of_all_not _ pre (all_not_right _ _ _ hall)]
      simp [List.countP_cons, Event.isExtract]
    · intro path hpth
      cases hpth
  | ok path =>
    have hfe : fetchAndExtract env cacheDir dir pkg fn pre =
        ((env.extractRun pkg.Method path dir pkg.Paths).map
            (wrapf ("failed to unzip package " ++ path)),
         pre ++ [.netFetch pkg.URL cacheDir fn,
                 .extractRun pkg.Method path dir pkg.Paths]) := by
      cases hx : env.extractRun pkg.Method path dir pkg.Paths with
      | some e => simp [fetchAndExtract, hf, hx]
      | none => simp [fetchAndExtract, hf, hx]
    rw [hfe] at h
    injection h with h1 h2
    subst h1
    subst h2
    have hassoc : pre ++ [Event.netFetch pkg.URL cacheDir fn,
        Event.extractRun pkg.Method path dir pkg.Paths] =
        (pre ++ [Event.netFetch pkg.URL cacheDir fn]) ++
          [Event.extractRun pkg.Method path dir pkg.Paths] := by simp
    refine ⟨?_, ?_, ?_, ?_⟩
    · exact ensuredBeforeEvt_append cacheDir _ pre _
        (all_not_left _ _ _ hall) hany
    · rw [List.countP_append,
        countP_zero_of_all_not _ pre (all_not_left _ _ _ hall)]
      simp [List.countP_cons, Event.isNetFetch]
    · intro e he
      cases he
    · intro path' hpth
      injection hpth with hp1
      subst hp1
      refine ⟨rfl, ?_⟩
      rw [hassoc, List.getLast?_concat]

/-- Witness for C7: the concrete failing-fetch environment reaches the
fetch after ensuring both directories and reports the wrapped transport
error without extracting. -/
theorem c7_witness :
    ensuredBeforeEvt "/cache" Event.isNetFetch fetchFailNetTrace = true ∧
    fetchFailNetTrace.countP (fun ev => ev.isNetFetch) = 1 ∧
    (∀ e, fetchFailEnv.fromNet pawnLinux3104.URL "/cache" "pawnc-3.10.4-linux.tar.gz" =
        .error e →
      some (wrapf "failed to download package" "connection refused") =
        some (wrapf "failed to download package" e) ∧
      fetchFailNetTrace.countP (fun ev => ev.isExtract) = 0) ∧
    (∀ path, fetchFailEnv.fromNet pawnLinux3104.URL "/cache" "pawnc-3.10.4-linux.tar.gz" =
        .ok path →
      some (wrapf "failed to download package" "connection refused") =
        (fetchFailEnv.extractRun pawnLinux3104.Method path "/dest" pawnLinux3104.Paths).map
          (wrapf ("failed to unzip package " ++ path)) ∧
      fetchFailNetTrace.getLast? =
        some (.extractRun pawnLinux3104.Method path "/dest" pawnLinux3104.Paths)) :=
  c7_net_stage_order fetchFailEnv "/cache" "3.10.4" "/dest" pawnLinux3104
    "pawnc-3.10.4-linux.tar.gz" (by decide) (Or.inr rfl) (Or.inr rfl)
    (some (wrapf "failed to download package" "connection refused")) fetchFailNetTrace
    (by decide)

/-! ## Template-resolution lemmas -/

/-- A parse success makes `resolveTemplate` return the rendering. -/
theorem resolveTemplate_ok_of_parse (t v : String) (ps : List TmplPart)
    (h : parseTmpl t.data = some ps) :
    resolveTemplate t v = .ok ⟨renderTmpl ps v.data⟩ := by
  unfold resolveTemplate
  rw [h]

/-- `escChar` never emits a brace: the entity and replacement strings are
brace-free and a brace-free character passes through as itself. -/
theorem escChar_all_noBrace (a : Char) (ha : a ≠ lbrace ∧ a ≠ rbrace) :
    ∀ c ∈ escChar a, c ≠ lbrace ∧ c ≠ rbrace := by
  intro c hc
  unfold escChar at hc
  split at hc
  · exact (by decide : ∀ x ∈ "&lt;".data, x ≠ lbrace ∧ x ≠ rbrace) c hc
  · exact (by decide : ∀ x ∈ "&gt;".data, x ≠ lbrace ∧ x ≠ rbrace) c hc
  · exact (by decide : ∀ x ∈ "&amp;".data, x ≠ lbrace ∧ x ≠ rbrace) c hc
  · exact (by decide : ∀ x ∈ "&#39;".data, x ≠ lbrace ∧ x ≠ rbrace) c hc
  · exact (by decide : ∀ x ∈ "&#34;".data, x ≠ lbrace ∧ x ≠ rbrace) c hc
  · split at hc
    · exact (by decide : ∀ x ∈ "�".data, x ≠ lbrace ∧ x ≠ rbrace) c hc
    · simp only [List.mem_cons, List.not_mem_nil, or_false] at hc
      subst hc
      exact ha

/-- HTML text-escaping preserves brace-freedom. -/
theorem htmlEscape_noBrace (l : List Char) (h : ∀ c ∈ l, c ≠ lbrace ∧ c ≠ rbrace) :
    ∀ c ∈ htmlEscape l, c ≠ lbrace ∧ c ≠ rbrace := by
  intro c hc
  rw [htmlEscape, List.mem_flatMap] at hc
  obtain ⟨a, ha, hca⟩ := hc
  exact escChar_all_noBrace a (h a ha) c hca

/-- Rendering a template whose literal parts are brace-free against a
brace-free version yields a brace-free string. -/
theorem renderTmpl_noBrace (ps : List TmplPart) (v : String)
    (hps : ps.all TmplPart.litBraceFree = true)
    (hv : ∀ c ∈ v.data, c ≠ lbrace ∧ c ≠ rbrace) :
    ∀ c ∈ renderTmpl ps v.data, c ≠ lbrace ∧ c ≠ rbrace := by
  intro c hc
  unfold renderTmpl at hc
  rw [List.mem_flatMap] at hc
  obtain ⟨p, hp, hcp⟩ := hc
  rw [List.all_eq_true] at hps
  have hlit := hps p hp
  cases p with
  | lit s =>
    simp only [TmplPart.litBraceFree, List.all_eq_true, Bool.and_eq_true,
      decide_eq_true_eq] at hlit
    exact hlit c hcp
  | versionHole => exact htmlEscape_noBrace v.data hv c hcp

/-- Unpack `braceFree` into a membership statement. -/
theorem braceFree_chars (s : String) (h : braceFree s = true) :
    ∀ c ∈ s.data, c ≠ lbrace ∧ c ≠ rbrace := by
  simp only [braceFree, List.all_eq_true, Bool.and_eq_true, decide_eq_true_eq] at h
  exact h

/-- Pack a membership statement into `braceFree`. -/
theorem braceFree_of_chars (s : String) (h : ∀ c ∈ s.data, c ≠ lbrace ∧ c ≠ rbrace) :
    braceFree s = true := by
  simp only [braceFree, List.all_eq_true, Bool.and_eq_true, decide_eq_true_eq]
  exact h

/-- A pattern starting with `\x7b` never occurs in a brace-free string. -/
theorem countSub_zero_of_noBrace (pat s : List Char) (hpat : pat.head? = some lbrace)
    (hs : ∀ c ∈ s, c ≠ lbrace) : countSub pat s = 0 := by
  induction s with
  | nil => rfl
  | cons c rest ih =>
    have hc : c ≠ lbrace := hs c (.head _)
    have hpre : pat.isPrefixOf (c :: rest) = false := by
      cases pat with
      | nil => simp at hpat
      | cons p ps =>
        simp only [List.head?_cons, Option.some.injEq] at hpat
        subst hpat
        simp only [List.isPrefixOf_cons₂, Bool.and_eq_false_iff]
        left
        simp [beq_eq_false_iff_ne]
        exact fun hx => hc hx.symm
    unfold countSub
    rw [hpre]
    simp only [if_false, Bool.false_eq_true, ite_false, Nat.zero_add]
    exact ih fun x hx => hs x (.tail _ hx)

/-- A brace-free character list has no placeholder occurrence and packs
into a brace-free string. -/
theorem resolved_props (l : List Char) (h : ∀ c ∈ l, c ≠ lbrace ∧ c ≠ rbrace) :
    countSub versionPlaceholder.data l = 0 ∧ braceFree ⟨l⟩ = true := by
  constructor
  · exact countSub_zero_of_noBrace _ _ (by decide) fun c hc => (h c hc).1
  · exact braceFree_of_chars _ h

/-- If every template of a path map parses, the resolution loop returns. -/
theorem resolvePaths_ok (version : String) :
    ∀ l : List (String × String),
      (∀ p ∈ l, (parseTmpl p.1.data).isSome = true ∧ (parseTmpl p.2.data).isSome = true) →
      ∃ r, resolvePaths version l = .ok r := by
  intro l
  induction l with
  | nil => exact fun _ => ⟨[], rfl⟩
  | cons p rest ih =>
    intro hp
    obtain ⟨h1, h2⟩ := hp p (.head _)
    obtain ⟨r, hr⟩ := ih fun q hq => hp q (.tail _ hq)
    obtain ⟨ps1, hps1⟩ := Option.isSome_iff_exists.mp h1
    obtain ⟨ps2, hps2⟩ := Option.isSome_iff_exists.mp h2
    obtain ⟨s, t⟩ := p
    refine ⟨(⟨renderTmpl ps1 version.data⟩, ⟨renderTmpl ps2 version.data⟩) :: r, ?_⟩
    unfold resolvePaths
    rw [resolveTemplate_ok_of_parse _ _ _ hps1, resolveTemplate_ok_of_parse _ _ _ hps2, hr]

/-- If the platform lookup selects a package whose templates all parse, the
resolution in `GetCompilerPackageInfo` cannot panic. -/
theorem info_branch_not_panicked (goos os version : String) (pkg : CompilerPackage)
    (hsel : (if os = "windows" then some pawnWin32
      else if os = "linux" then some pawnLinux
      else if os = "darwin" then some pawnMacOS
      else none) = some pkg)
    (hU : (parseTmpl pkg.URL.data).isSome = true)
    (hP : ∀ p ∈ pkg.Paths,
      (parseTmpl p.1.data).isSome = true ∧ (parseTmpl p.2.data).isSome = true) :
    GetCompilerPackageInfo goos os version ≠ .panicked := by
  unfold GetCompilerPackageInfo
  dsimp only
  rw [hsel]
  dsimp only
  obtain ⟨psU, hpsU⟩ := Option.isSome_iff_exists.mp hU
  rw [resolveTemplate_ok_of_parse _ _ _ hpsU]
  dsimp only
  obtain ⟨r, hr⟩ := resolvePaths_ok version pkg.Paths hP
  rw [hr]
  dsimp only
  cases urlParse ⟨renderTmpl psU version.data⟩ <;> simp

/-! ## C6 -/

/-- **C6 counterexample**: on the malformed template `\x7b\x7b` (an
unclosed action), resolution does not return an error value to the caller:
the process panics (`template.Must` panics on the parse error; an
`Execute` error hits an explicit `panic(err)`). -/
theorem c6_counterexample :
    resolveTemplate "\x7b\x7b" "3.10.4" = .panicked := by decide

/-- **C6 (amended)**: a malformed template — anything outside the closed
grammar of literal text and `\x7b\x7b.Version\x7d\x7d` actions — makes
template resolution panic (crash the process) rather than return a
`TemplateError` to the caller; with the static catalog's well-formed
templates, however, no call of `GetCompilerPackageInfo` ever panics, for
any `os` and any `version`. -/
theorem c6_malformed_template_panics :
    (∀ tmpl version : String, (parseTmpl tmpl.data).isNone = true →
      resolveTemplate tmpl version = .panicked) ∧
    (∀ goos os version : String, GetCompilerPackageInfo goos os version ≠ .panicked) := by
  constructor
  · intro tmpl version h
    unfold resolveTemplate
    cases hp : parseTmpl tmpl.data with
    | none => rfl
    | some ps => rw [hp] at h; cases h
  · intro goos os version
    by_cases h1 : os = "windows"
    · subst h1
      exact info_branch_not_panicked goos _ version pawnWin32 (by simp) (by decide) (by decide)
    · by_cases h2 : os = "linux"
      · subst h2
        exact info_branch_not_panicked goos _ version pawnLinux (by simp) (by decide) (by decide)
      · by_cases h3 : os = "darwin"
        · subst h3
          exact info_branch_not_panicked goos _ version pawnMacOS (by simp) (by decide)
            (by decide)
        · unfold GetCompilerPackageInfo
          dsimp only
          simp [h1, h2, h3]

/-- Witness for the amended C6: the unclosed action panics; a well-formed
concrete call does not. -/
theorem c6_witness :
    resolveTemplate "\x7b\x7bVersion" "3.10.4" = .panicked ∧
    GetCompilerPackageInfo "linux" "linux" "3.10.4" ≠ .panicked :=
  ⟨c6_malformed_template_panics.1 "\x7b\x7bVersion" "3.10.4" (by decide),
   c6_malformed_template_panics.2 "linux" "linux" "3.10.4"⟩

/-! ## C3 -/

/-- **C3**: evaluating the code at version `<` shows the placeholder is
replaced by the HTML-escaped version, not the literal version string: the
source resolves its templates with `html/template`, whose text-context
escaper rewrites `<` to `&lt;` in the locator and in every path-map key,
while the claimed literal substitution (`substVersion`) keeps `<`. -/
theorem c3_html_escaped_substitution :
    GetCompilerPackageInfo "darwin" "darwin" "<" =
      .ok (.ok
        ({ URL := "https://github.com/Zeex/pawn/releases/download/v&lt;/pawnc-&lt;-darwin.zip"
           Method := .Unzip
           Paths := [("pawnc-&lt;-darwin/bin/pawncc", "pawncc"),
                     ("pawnc-&lt;-darwin/lib/libpawnc.dylib", "libpawnc.dylib")] },
         "pawnc-&lt;-darwin.zip")) ∧
    substVersion pawnMacOS.URL "<" =
      "https://github.com/Zeex/pawn/releases/download/v</pawnc-<-darwin.zip" ∧
    ("https://github.com/Zeex/pawn/releases/download/v&lt;/pawnc-&lt;-darwin.zip" : String) ≠
      "https://github.com/Zeex/pawn/releases/download/v</pawnc-<-darwin.zip" :=
  ⟨by decide, by decide, by decide⟩

/-! ## C8 -/

/-- **C8**: for every version string containing no placeholder syntax (no
brace character), resolving any template of the platform catalog — the
locator templates and every path-map key and value — succeeds and yields a
string with zero remaining placeholder occurrences (indeed with no brace
character at all). -/
theorem c8_resolution_totality (t version : String)
    (ht : t ∈ catalogTemplates) (hv : braceFree version = true) :
    ∃ s, resolveTemplate t version = .ok s ∧
      countSub versionPlaceholder.data s.data = 0 ∧ braceFree s = true := by
  have hvc := braceFree_chars version hv
  fin_cases ht <;>
  · refine ⟨_, resolveTemplate_ok_of_parse _ version _ rfl, ?_⟩
    exact resolved_props _ (renderTmpl_noBrace _ version (by decide) hvc)

/-- Witness for C8: the linux locator template at version `3.10.4`. -/
theorem c8_witness :
    ∃ s, resolveTemplate pawnLinux.URL "3.10.4" = .ok s ∧
      countSub versionPlaceholder.data s.data = 0 ∧ braceFree s = true :=
  c8_resolution_totality pawnLinux.URL "3.10.4" (by decide) (by decide)

/-! ## C9 -/

/-- If every template of a path map parses, the store-passing resolution
loop returns. -/
theorem resolvePathsH_ok (version : String) (newRef : Nat) :
    ∀ (l : List (String × String)) (store : MapStore),
      (∀ p ∈ l, (parseTmpl p.1.data).isSome = true ∧ (parseTmpl p.2.data).isSome = true) →
      ∃ store2, resolvePathsH version newRef l store = .ok store2 := by
  intro l
  induction l with
  | nil => exact fun store _ => ⟨store, rfl⟩
  | cons p rest ih =>
    intro store hp
    obtain ⟨h1, h2⟩ := hp p (.head _)
    obtain ⟨ps1, hps1⟩ := Option.isSome_iff_exists.mp h1
    obtain ⟨ps2, hps2⟩ := Option.isSome_iff_exists.mp h2
    obtain ⟨s, t⟩ := p
    obtain ⟨store2, hst⟩ := ih (store.set newRef (mapSet (store.getD newRef [])
        ⟨renderTmpl ps1 version.data⟩ ⟨renderTmpl ps2 version.data⟩))
      (fun q hq => hp q (.tail _ hq))
    refine ⟨store2, ?_⟩
    unfold resolvePathsH
    rw [resolveTemplate_ok_of_parse _ _ _ hps1, resolveTemplate_ok_of_parse _ _ _ hps2]
    exact hst

/-- The store-passing loop writes only at `newRef`: every other store index
reads the same after the loop. -/
theorem resolvePathsH_get (version : String) (newRef i : Nat) (hi : i ≠ newRef) :
    ∀ (l : List (String × String)) (store store2 : MapStore),
      resolvePathsH version newRef l store = .ok store2 →
      store2[i]? = store[i]? := by
  intro l
  induction l with
  | nil =>
    intro store store2 h
    simp only [resolvePathsH, GoResult.ok.injEq] at h
    rw [h]
  | cons p rest ih =>
    intro store store2 h
    obtain ⟨s, t⟩ := p
    unfold resolvePathsH at h
    cases hr1 : resolveTemplate s version with
    | panicked =>
      rw [hr1] at h
      cases hr2 : resolveTemplate t version <;> rw [hr2] at h <;> cases h
    | ok s1 =>
      rw [hr1] at h
      cases hr2 : resolveTemplate t version with
      | panicked => rw [hr2] at h; cases h
      | ok t1 =>
        rw [hr2] at h
        dsimp only at h
        rw [ih _ _ h]
        exact List.getElem?_set_ne (Ne.symm hi)

/-- If the platform lookup selects a catalog package, the store-passing
resolution succeeds and leaves every index below the allocation point —
all pre-existing maps — unchanged. -/
theorem infoH_branch (goos os version : String) (pkgR : CompilerPackageRef)
    (hsel : (if os = "windows" then some pawnWin32Ref
      else if os = "linux" then some pawnLinuxRef
      else if os = "darwin" then some pawnMacOSRef
      else none) = some pkgR)
    (hU : (parseTmpl pkgR.URL.data).isSome = true)
    (hP : ∀ p ∈ catalogStore.getD pkgR.PathsRef [],
      (parseTmpl p.1.data).isSome = true ∧ (parseTmpl p.2.data).isSome = true) :
    GetCompilerPackageInfoH catalogStore goos os version ≠ .panicked ∧
    ∀ i, i < catalogStore.length →
      (infoHStore catalogStore goos os version)[i]? = catalogStore[i]? := by
  obtain ⟨psU, hpsU⟩ := Option.isSome_iff_exists.mp hU
  obtain ⟨store2, hps⟩ := resolvePathsH_ok version catalogStore.length
    (catalogStore.getD pkgR.PathsRef []) (catalogStore ++ [[]]) hP
  have hmain : ∃ outc, GetCompilerPackageInfoH catalogStore goos os version =
      .ok (outc, store2) := by
    unfold GetCompilerPackageInfoH
    dsimp only
    rw [hsel]
    dsimp only
    rw [resolveTemplate_ok_of_parse _ _ _ hpsU]
    dsimp only
    rw [hps]
    dsimp only
    cases urlParse ⟨renderTmpl psU version.data⟩
    · exact ⟨_, rfl⟩
    · exact ⟨_, rfl⟩
  obtain ⟨outc, hM⟩ := hmain
  constructor
  · rw [hM]
    simp
  · intro i hilen
    unfold infoHStore
    rw [hM]
    have hpres := resolvePathsH_get version catalogStore.length i (by omega) _ _ _ hps
    rw [hpres]
    exact List.getElem?_append_left hilen

/-- **C9**: the catalog is never mutated: in the store-passing view — where
a Go map value is a reference into the map store and the `Paths` loop of
`GetCompilerPackageInfo` performs real writes — every call on the catalog
store, for any `os` and any `version`, terminates without panic and reads
every one of the three catalog maps identically before and after: the loop
builds a fresh map (`newPaths`) and repoints only the local struct copy. -/
theorem c9_catalog_immutable (goos os version : String) :
    GetCompilerPackageInfoH catalogStore goos os version ≠ .panicked ∧
    (infoHStore catalogStore goos os version)[0]? = catalogStore[0]? ∧
    (infoHStore catalogStore goos os version)[1]? = catalogStore[1]? ∧
    (infoHStore catalogStore goos os version)[2]? = catalogStore[2]? := by
  by_cases h1 : os = "windows"
  · subst h1
    obtain ⟨hnp, hpres⟩ := infoH_branch goos "windows" version pawnWin32Ref (by simp) (by decide)
      (by decide)
    exact ⟨hnp, hpres 0 (by decide), hpres 1 (by decide), hpres 2 (by decide)⟩
  · by_cases h2 : os = "linux"
    · subst h2
      obtain ⟨hnp, hpres⟩ := infoH_branch goos "linux" version pawnLinuxRef (by simp) (by decide)
        (by decide)
      exact ⟨hnp, hpres 0 (by decide), hpres 1 (by decide), hpres 2 (by decide)⟩
    · by_cases h3 : os = "darwin"
      · subst h3
        obtain ⟨hnp, hpres⟩ := infoH_branch goos "darwin" version pawnMacOSRef (by simp) (by decide)
          (by decide)
        exact ⟨hnp, hpres 0 (by decide), hpres 1 (by decide), hpres 2 (by decide)⟩
      · have hun : GetCompilerPackageInfoH catalogStore goos os version =
            .ok (.error ("unsupported OS " ++ goos), catalogStore) := by
          unfold GetCompilerPackageInfoH
          dsimp only
          simp [h1, h2, h3]
        refine ⟨by rw [hun]; simp, ?_, ?_, ?_⟩ <;>
          · unfold infoHStore
            rw [hun]

end Sampctl
